import Mathlib

/-!
Verification of the deterministic-variation and generation-orchestration core of
the government-phone-org-site repository.

The TypeScript source is shallowly embedded:

* JavaScript 32-bit integer coercions (`x & x`, `x << 5`) are modelled on `Int`
  with an explicit reduction into the signed 32-bit range.
* JavaScript numbers are IEEE doubles, but every arithmetic operation the
  embedded code performs stays on integers below 2^53 (LCG states are < 2^32,
  multipliers and array lengths are small), where IEEE arithmetic is exact, so
  `Nat`/`Int` arithmetic is a faithful model.  The single division `state / 2^32`
  is by a power of two and hence exact; it is modelled on `ℚ`.
* JavaScript strings are modelled as `List Char` (or as their UTF-16 code-unit
  lists, `List Nat`, where the code reads `charCodeAt`).  All concrete strings
  appearing in the claims are ASCII, where the two views agree and one
  character is one byte, so `length` simultaneously models `String.length` and
  the on-disk byte size reported by `fs.stat`.
* The file system is a map from paths to optional file contents; asynchronous
  effects are modelled by explicit state passing, and a possibly-hanging
  asynchronous computation by `Option` (`none` = never settles).
-/

set_option maxRecDepth 8000

namespace Site

/-! ## JavaScript integer coercion -/

/-- JS `ToInt32`: reduce an integer into `[-2^31, 2^31)`.  This is what
`hash & hash` and the implicit coercion of `<<` perform in
`createSeededRandom` (src/unnamed/part_000, lines 13-18). -/
def toInt32 (x : Int) : Int :=
  if x % 4294967296 < 2147483648 then x % 4294967296 else x % 4294967296 - 4294967296

/-! ## Seeded pseudo-random source (src/unnamed/part_000, lines 11-26)

```js
function createSeededRandom(seed: string): () => number {
  let hash = 0;
  for (let i = 0; i < seed.length; i++) {
    const char = seed.charCodeAt(i);
    hash = ((hash << 5) - hash) + char;
    hash = hash & hash; // Convert to 32bit integer
  }
  let state = Math.abs(hash) || 1;
  return function(): number {
    state = (state * 1664525 + 1013904223) % 4294967296;
    return state / 4294967296;
  };
}
```

The seed string enters only through its sequence of UTF-16 code units
(`charCodeAt`), so the embedding takes a `List Nat` of code units. -/

/-- One iteration of the seed-folding loop: `hash = ((hash << 5) - hash) + char`
followed by `hash = hash & hash`.  `hash << 5` coerces to int32 after the
shift, the outer `& hash` coerces the (exact, < 2^53) float sum back. -/
def hashStep (h : Int) (c : Nat) : Int :=
  toInt32 (toInt32 (h * 32) - h + c)

/-- The folded 32-bit hash of the whole seed. -/
def hashSeed (codes : List Nat) : Int :=
  codes.foldl hashStep 0

/-- Initial LCG state: `Math.abs(hash) || 1`. -/
def createSeededRandom (codes : List Nat) : Nat :=
  let a := (hashSeed codes).natAbs
  if a = 0 then 1 else a

/-- One LCG step: `state = (state * 1664525 + 1013904223) % 4294967296`.
All quantities stay below 2^53, so JS float arithmetic computes this exactly. -/
def lcgNext (s : Nat) : Nat :=
  (s * 1664525 + 1013904223) % 4294967296

/-- Iterating the LCG `n` times from a given state. -/
def lcgIter (s0 : Nat) : Nat → Nat
  | 0 => s0
  | n + 1 => lcgNext (lcgIter s0 n)

/-- A generator object returned by `createSeededRandom`: a closure over the
mutable `state` variable. -/
structure RandGenState where
  state : Nat
deriving DecidableEq

/-- Creating a fresh generator from a seed. -/
def mkGen (codes : List Nat) : RandGenState :=
  ⟨createSeededRandom codes⟩

/-- One call of the returned closure: advance the state, return `state / 2^32`. -/
def RandGenState.next (g : RandGenState) : ℚ × RandGenState :=
  let s := lcgNext g.state
  ((s : ℚ) / 4294967296, ⟨s⟩)

/-- The list of values produced by `n` successive calls of the closure. -/
def RandGenState.run : RandGenState → Nat → List ℚ
  | _, 0 => []
  | g, n + 1 =>
    let p := g.next
    p.1 :: p.2.run n

/-! ## Seeded shuffle (src/unnamed/part_000, lines 32-42)

```js
function seededShuffle<T>(array: T[], seed: string): T[] {
  const shuffled = [...array];
  const random = createSeededRandom(seed);
  for (let i = shuffled.length - 1; i > 0; i--) {
    const j = Math.floor(random() * (i + 1));
    [shuffled[i], shuffled[j]] = [shuffled[j], shuffled[i]];
  }
  return shuffled;
}
```
-/

/-- Element swap on a list, with the in-range side conditions checked at run
time (they always hold at the call sites).  Models the JS destructuring swap
`[a[i], a[j]] = [a[j], a[i]]`: both reads happen before both writes. -/
def swapL (l : List α) (i j : Nat) : List α :=
  if hi : i < l.length then
    if hj : j < l.length then (l.set i l[j]).set j l[i]
    else l
  else l

/-- Computes `Math.floor(random() * (i + 1))` where `random()` returned `s / 2^32`:
for the list lengths in this repository `s * (i+1) < 2^53`, so the IEEE
product and floor are exact and equal to this natural-number division. -/
def floorMulDiv (s k : Nat) : Nat :=
  s * k / 4294967296

/-- The Fisher-Yates loop, counting the loop variable `i` down from
`array.length - 1` to `1`; `st` is the current LCG state of the `random`
closure. -/
def fyLoop : List α → Nat → Nat → List α × Nat
  | l, st, 0 => (l, st)
  | l, st, i + 1 =>
    let st' := lcgNext st
    let j := floorMulDiv st' (i + 2)
    fyLoop (swapL l (i + 1) j) st' i

/-- Definition of `seededShuffle`: copy, seed a fresh generator, run the loop. -/
def seededShuffle (l : List α) (seedCodes : List Nat) : List α :=
  (fyLoop l (createSeededRandom seedCodes) (l.length - 1)).1

/-- UTF-16 code units of an ASCII string (all string literals involved are
ASCII, where `Char.toNat` is the code unit). -/
def strCodes (s : String) : List Nat :=
  s.data.map Char.toNat

/-! ## Static-page shuffle (src/unnamed/part_000, lines 178-185)

```js
export function shuffleStaticPages(pages: string[]): string[] {
  const domain = getDomain();
  const homepage = pages.find(p => p === '');
  const otherPages = pages.filter(p => p !== '');
  const shuffledOthers = seededShuffle(otherPages, domain + '-pages');
  return homepage !== undefined ? ['', ...shuffledOthers] : shuffledOthers;
}
```

`getDomain()` is external configuration; the embedding takes the domain's code
units as a parameter. -/

def shuffleStaticPages (domainCodes : List Nat) (pages : List String) : List String :=
  let homepage := pages.find? (fun p => p == "")
  let otherPages := pages.filter (fun p => !(p == ""))
  let shuffledOthers := seededShuffle otherPages (domainCodes ++ strCodes "-pages")
  match homepage with
  | some _ => "" :: shuffledOthers
  | none => shuffledOthers

/-! ## Generation pipeline constants
(src/src/lib/variations/keywords/free-government-phone/body-variations.ts,
lines 284-301) -/

def STATIC_PAGE_NAMES : List String :=
  ["faq", "programs", "providers", "eligibility", "contact", "apply", "states-index", "404"]

def PROGRAM_PAGE_NAMES : List String :=
  ["state-programs", "lifeline-program", "acp-program", "tribal-programs", "emergency-broadband"]

def MAX_RETRIES : Nat := 8

def INITIAL_RETRY_DELAY_MS : Nat := 5000

/-- Source line 297: `const MAX_RETRY_DELAY_MS = 60000; // Max 60 second delay`. -/
def MAX_RETRY_DELAY_MS : Nat := 60000

/-! ## Error classification and retry policy (body-variations.ts, lines 333-370) -/

/-- Substring test on code-unit lists (JS `String.prototype.includes`). -/
def isInfixL (p : List Char) : List Char → Bool
  | [] => p.isEmpty
  | c :: rest => p.isPrefixOf (c :: rest) || isInfixL p rest

/-- JS `haystack.includes(needle)` for the ASCII strings used by the source. -/
def strContains (haystack needle : String) : Bool :=
  isInfixL needle.data haystack.data

/-- A thrown JS error as `withRetry` inspects it: an optional numeric `status`
and a `message`. -/
structure JsError where
  status : Option Nat
  message : String
deriving DecidableEq

/-- Lines 347-351: rate-limit classification
`error.status === 429 || error.status === 529 ||
 error.message?.includes('rate') || error.message?.includes('overloaded')`. -/
def isRateLimitError (e : JsError) : Bool :=
  e.status == some 429 || e.status == some 529 ||
    strContains e.message "rate" || strContains e.message "overloaded"

/-- The module-level mutable rate-limit bookkeeping (lines 300-301):
`let lastRateLimitHit = 0; let consecutiveRateLimitHits = 0;`. -/
structure RateLimitState where
  lastRateLimitHit : Nat
  consecutiveRateLimitHits : Nat
deriving DecidableEq

/-- Observable trace of one `withRetry` invocation: its result, the list of
delays passed to `sleep` (in order), and the rate-limit state it leaves
behind. -/
structure RetryTrace (T : Type) where
  result : Except JsError T
  delays : List Nat
  finalState : RateLimitState

/-- The `for (let attempt = 0; attempt <= maxRetries; attempt++)` loop of
`withRetry` (lines 340-367).  `attempts k` is the settled outcome of the
`k`-th call of `fn`; `times k` is the value of `Date.now()` when that call is
observed to fail.  The fuel argument equals `maxRetries + 1 - attempt`, the
number of iterations the loop has left, so the fuel-0 branch (the trailing
`throw lastError` of line 369) is never reached from `withRetry`. -/
def withRetryGo (attempts : Nat → Except JsError T) (times : Nat → Nat)
    (maxRetries : Nat) : Nat → Nat → RateLimitState → RetryTrace T
  | 0, _, st => ⟨Except.error ⟨none, "Failed after " ++ toString maxRetries ++ " retries"⟩, [], st⟩
  | fuel + 1, attempt, st =>
    match attempts attempt with
    | Except.ok v => ⟨Except.ok v, [], st⟩
    | Except.error e =>
      if isRateLimitError e && decide (attempt < maxRetries) then
        -- lines 354-360: `lastRateLimitHit = Date.now();` then
        -- `const delay = INITIAL_RETRY_DELAY_MS * Math.pow(2, attempt); await sleep(delay);`
        let st' : RateLimitState := { st with lastRateLimitHit := times attempt }
        let delay := INITIAL_RETRY_DELAY_MS * 2 ^ attempt
        let rest := withRetryGo attempts times maxRetries fuel (attempt + 1) st'
        ⟨rest.result, delay :: rest.delays, rest.finalState⟩
      else
        ⟨Except.error e, [], st⟩

/-- Models `withRetry(fn, pageName, maxRetries = MAX_RETRIES)` as a trace over the
outcomes of the successive `fn()` calls, starting from rate-limit state `st`. -/
def withRetry (attempts : Nat → Except JsError T) (times : Nat → Nat)
    (st : RateLimitState) (maxRetries : Nat) : RetryTrace T :=
  withRetryGo attempts times maxRetries (maxRetries + 1) 0 st

/-! ## Asynchronous settling model (body-variations.ts, lines 375-386 and 736-753)

A promise either settles (`some outcome`) or never settles (`none`). -/

/-- Models `withTimeout(fn, timeoutMs, pageName)`: it races `fn()` against a timer that
rejects after `timeoutMs`.  The timer always settles, so the race settles even
when `fn` hangs; `timeoutErr` stands for the rejection
`new Error('Timeout after ...')`. -/
def withTimeout (fn : Option T) (timeoutMs : Nat) : Option (Except JsError T) :=
  match fn with
  | some v => some (Except.ok v)
  | none => some (Except.error ⟨none, "Timeout after " ++ toString timeoutMs ++ "ms"⟩)

/-- Models `withRetry` at the settling level: the `k`-th `fn()` call either hangs
(`none`) or settles with `some` outcome.  `await fn()` on a hanging promise
suspends the whole `withRetry` call forever, hence the `none => none` case. -/
def withRetryAsync (attempts : Nat → Option (Except JsError T)) (maxRetries : Nat) :
    Nat → Nat → Option (Except JsError T)
  | 0, _ => some (Except.error ⟨none, "Failed after retries"⟩)
  | fuel + 1, attempt =>
    match attempts attempt with
    | none => none
    | some (Except.ok v) => some (Except.ok v)
    | some (Except.error e) =>
      if isRateLimitError e && decide (attempt < maxRetries) then
        withRetryAsync attempts maxRetries fuel (attempt + 1)
      else
        some (Except.error e)

/-- The single external generation call of `generatePageWithClaude`
(lines 740-753): `await withRetry(() => anthropic.messages.create({...}),
pageDef.name)`.  The provider call is wrapped in `withRetry` and in nothing
else — in particular `withTimeout` is not applied anywhere in the source. -/
def generatePageProviderCall (attempts : Nat → Option (Except JsError T)) :
    Option (Except JsError T) :=
  withRetryAsync attempts MAX_RETRIES (MAX_RETRIES + 1) 0

/-! ## Output validation (body-variations.ts, lines 796-830)

File contents are `List Char`; all contents the claims touch are ASCII, where
JS `content.length` (UTF-16 units) and `fs.stat` byte size both equal the list
length. -/

/-- JS `content.split('\n')` on the character list. -/
def splitLines : List Char → List (List Char)
  | [] => [[]]
  | c :: rest =>
    let r := splitLines rest
    if c = '\n' then [] :: r
    else
      match r with
      | [] => [[c]]
      | l :: ls => (c :: l) :: ls

/-- JS `line.trim().length > 0` holds exactly when some character of the line is
not whitespace (trimming only removes whitespace from the two ends; ASCII
whitespace here, matching JS for the contents involved). -/
def isNonBlank (l : List Char) : Bool :=
  l.any (fun c => !c.isWhitespace)

/-- Substring test on character lists for `includes`. -/
def containsL (cs : List Char) (pat : String) : Bool :=
  isInfixL pat.data cs

/-- Models `validatePageContent` on the file's contents (the `fs.readFile` succeeded;
a read failure is handled by the caller model as a missing file):

```js
if (content.length < 500) return false;
if (!content.includes('---')) return false;
if (!content.includes('<html') && !content.includes('<!doctype') && !content.includes('<Layout')) return false;
const lowerContent = content.toLowerCase();
if (lowerContent.includes('error') && lowerContent.includes('failed') && content.length < 1000) return false;
if (content.split('\n').filter(line => line.trim().length > 0).length < 20) return false;
return true;
```
-/
def validatePageContent (content : List Char) : Bool :=
  if content.length < 500 then false
  else if !containsL content "---" then false
  else if !containsL content "<html" && !containsL content "<!doctype" &&
      !containsL content "<Layout" then false
  else
    let lowerContent := content.map Char.toLower
    if containsL lowerContent "error" && containsL lowerContent "failed" &&
        decide (content.length < 1000) then false
    else if ((splitLines content).filter isNonBlank).length < 20 then false
    else true

/-! ## Page definition catalog (body-variations.ts, lines 393-485)

Only the `name` and `outputPath` fields take part in the claimed behaviour
(category membership, skip decisions, output locations); the prompt fields
`title`, `focus` and `sections` are carried nowhere by the orchestration
logic being verified. -/

structure PageDef where
  name : String
  outputPath : String
deriving DecidableEq

def PAGE_DEFINITIONS : List PageDef :=
  [⟨"state-programs", "src/pages/state-programs.astro"⟩,
   ⟨"lifeline-program", "src/pages/lifeline-program.astro"⟩,
   ⟨"acp-program", "src/pages/acp-program.astro"⟩,
   ⟨"faq", "src/pages/faq.astro"⟩,
   ⟨"programs", "src/pages/programs.astro"⟩,
   ⟨"providers", "src/pages/providers.astro"⟩,
   ⟨"eligibility", "src/pages/eligibility.astro"⟩,
   ⟨"tribal-programs", "src/pages/tribal-programs.astro"⟩,
   ⟨"emergency-broadband", "src/pages/emergency-broadband.astro"⟩,
   ⟨"contact", "src/pages/contact.astro"⟩,
   ⟨"apply", "src/pages/apply.astro"⟩,
   ⟨"states-index", "src/pages/states/index.astro"⟩,
   ⟨"404", "src/pages/404.astro"⟩]

/-! ## Option filtering (body-variations.ts, lines 273-279 and 835-853) -/

structure GenerateOptions where
  homepage : Bool
  staticPages : Bool
  programPages : Bool
  cityStatePages : Bool
  forceRegenerate : Option Bool
deriving DecidableEq

/-- Models `filterPageDefinitions(options?)`: `undefined` options return the whole
catalog; otherwise pages in the static category are gated by
`options.staticPages`, pages in the program category by
`options.programPages`, and anything else is included. -/
def filterPageDefinitions (options : Option GenerateOptions) : List PageDef :=
  match options with
  | none => PAGE_DEFINITIONS
  | some o =>
    PAGE_DEFINITIONS.filter fun pd =>
      if STATIC_PAGE_NAMES.contains pd.name then o.staticPages
      else if PROGRAM_PAGE_NAMES.contains pd.name then o.programPages
      else true

/-! ## Per-page run step of `generateAllPageContent`
(body-variations.ts, lines 905-999)

The file system is a map from output paths to optional contents.  The provider
models the settled text of `generatePageWithClaude` for a page.  Batch
partitioning does not alter any per-page outcome: output paths are pairwise
distinct, each page task reads and writes only its own path, and with a total
(settling, non-throwing) provider the failure-retry pass of lines 1010-1056
never runs, so the run is modelled page by page in catalog order. -/

def FS : Type := String → Option (List Char)

def FS.write (fs : FS) (path : String) (content : List Char) : FS :=
  fun p => if p = path then some content else fs p

def emptyFS : FS := fun _ => none

inductive Outcome where
  | skipped
  | generated
deriving DecidableEq

/-- Lines 912-919: the categories that are always regenerated. -/
def mustRegenerate (name : String) : Bool :=
  PROGRAM_PAGE_NAMES.contains name || name == "providers" || name == "programs" ||
    name == "faq" || name == "states-index"

/-- One page task (lines 905-999), with a provider whose call settles with
`provider pd`:

* if the page is not in the always-regenerate set and `forceRegenerate` is not
  enabled, `fs.stat` + `validatePageContent` decide a skip: the file must
  exist, validate, and have `size > 500`;
* otherwise the existing file is deleted and the page is regenerated;
* regeneration writes the provider's content at the page's output path. -/
def runPage (provider : PageDef → List Char) (force : Bool) (fs : FS) (pd : PageDef) :
    Outcome × FS :=
  if !mustRegenerate pd.name && !force then
    match fs pd.outputPath with
    | some content =>
      if validatePageContent content && decide (content.length > 500) then
        (Outcome.skipped, fs)
      else
        (Outcome.generated, fs.write pd.outputPath (provider pd))
    | none => (Outcome.generated, fs.write pd.outputPath (provider pd))
  else
    (Outcome.generated, fs.write pd.outputPath (provider pd))

/-- The whole run over a page list: per-page outcomes in catalog order and the
final file system. -/
def runAll (provider : PageDef → List Char) (force : Bool) :
    List PageDef → FS → List (String × Outcome) × FS
  | [], fs => ([], fs)
  | pd :: rest, fs =>
    let r := runPage provider force fs pd
    let rr := runAll provider force rest r.2
    ((pd.name, r.1) :: rr.1, rr.2)

/-- The number of external provider calls a run makes: one per `generated`
outcome. -/
def providerCalls (outcomes : List (String × Outcome)) : Nat :=
  (outcomes.filter (fun o => o.2 == Outcome.generated)).length

/-! ## Definitions written from the spec's words (for refinement comparison) -/

/-- The seed-folding recurrence exactly as the spec words it:
`hash = hash*31 - hash + charCode`, wrapped to signed 32-bit.  This is the
spec-side definition of a refinement comparison; `hashStep`/`hashSeed` above
are the code-side one. -/
def specHashStep (h : Int) (c : Nat) : Int :=
  toInt32 (h * 31 - h + c)

/-- Applies `abs(hash) || 1` to the spec-worded hash: the initial LCG state the
spec's algorithm paragraph describes. -/
def specCreateSeededRandom (codes : List Nat) : Nat :=
  let a := (codes.foldl specHashStep 0).natAbs
  if a = 0 then 1 else a

/-! ## Concrete inputs used by counterexamples and witnesses -/

/-- A 612-byte ASCII page body that passes every `validatePageContent`
heuristic: frontmatter marker, `<Layout` marker, 22 non-blank lines, no
error/failure markers. -/
def validContent : List Char :=
  "---\n<Layout\n".data ++ (List.replicate 20 "aaaaaaaaaaaaaaaaaaaaaaaaaaaaa\n".data).flatten

/-- An ASCII page body of exactly 500 bytes that passes every
`validatePageContent` heuristic (length 500 is not `< 500`). -/
def c500 : List Char :=
  "---\n<Layout\n".data ++ (List.replicate 19 "aaaaaaaaaaaaaaaaaaaaaaaa\n".data).flatten ++
    "aaaaaaaaaaaa\n".data

/-- A provider whose every settled response is the valid body above. -/
def constProvider : PageDef → List Char := fun _ => validContent

/-- A provider call behaviour in which every call fails with HTTP 429. -/
def attempts429 : Nat → Except JsError Nat :=
  fun _ => Except.error ⟨some 429, "rate limited"⟩

/-- A provider call behaviour whose first call fails with HTTP 429 and whose
later calls succeed. -/
def attempts429once : Nat → Except JsError Nat :=
  fun k => if k = 0 then Except.error ⟨some 429, "rate limited"⟩ else Except.ok 0

/-- A clock: `Date.now()` reads `1000 * (k + 1)` at the failure of attempt `k`. -/
def times1k : Nat → Nat := fun k => 1000 * (k + 1)

/-- A provider call that never settles. -/
def hangingAttempts : Nat → Option (Except JsError (List Char)) := fun _ => none

/-- The `apply` page of the catalog (a page outside every always-regenerate
category). -/
def applyPage : PageDef := ⟨"apply", "src/pages/apply.astro"⟩

/-- The file system holds, at `path`, contents that exist, validate, and
exceed 500 bytes — the three conditions of the spec's Idempotency Gate. -/
def goodAt (fs : FS) (pd : PageDef) : Prop :=
  ∃ c, fs pd.outputPath = some c ∧ validatePageContent c = true ∧ 500 < c.length

/-! # Helper lemmas -/

/-- Pulling the element at index `m` to the front while writing `a` into its
slot is a permutation of putting `a` at the front. -/
theorem cons_set_perm (a : α) : ∀ (t : List α) (m : Nat) (h : m < t.length),
    List.Perm (t.get ⟨m, h⟩ :: t.set m a) (a :: t) := by
  intro t
  induction t with
  | nil => intro m h; simp at h
  | cons b t ih =>
    intro m h
    cases m with
    | zero => exact List.Perm.swap a b t
    | succ k =>
      have hk : k < t.length := by simpa using h
      exact ((List.Perm.swap b (t.get ⟨k, hk⟩) (t.set k a)).trans
        ((ih k hk).cons b)).trans (List.Perm.swap a b t)

/-- The two-write swap is a permutation. -/
theorem set_set_swap_perm : ∀ (l : List α) (i j : Nat) (hi : i < l.length)
    (hj : j < l.length),
    List.Perm ((l.set i (l.get ⟨j, hj⟩)).set j (l.get ⟨i, hi⟩)) l := by
  intro l
  induction l with
  | nil => intro i j hi _; simp at hi
  | cons a t ih =>
    intro i j hi hj
    cases i with
    | zero =>
      cases j with
      | zero => simp
      | succ m => exact cons_set_perm a t m (by simpa using hj)
    | succ n =>
      cases j with
      | zero => exact cons_set_perm a t n (by simpa using hi)
      | succ m => exact (ih n m (by simpa using hi) (by simpa using hj)).cons a

/-- Lemma: `swapL` always returns a permutation of its input. -/
theorem swapL_perm (l : List α) (i j : Nat) : List.Perm (swapL l i j) l := by
  unfold swapL
  split
  · split
    · exact set_set_swap_perm l i j (by assumption) (by assumption)
    · exact List.Perm.refl l
  · exact List.Perm.refl l

/-- The Fisher-Yates loop returns a permutation of its input. -/
theorem fyLoop_perm : ∀ (i : Nat) (l : List α) (st : Nat),
    List.Perm (fyLoop l st i).1 l := by
  intro i
  induction i with
  | zero => intro l st; exact List.Perm.refl l
  | succ n ih =>
    intro l st
    exact (ih (swapL l (n + 1) (floorMulDiv (lcgNext st) (n + 2))) (lcgNext st)).trans
      (swapL_perm l (n + 1) (floorMulDiv (lcgNext st) (n + 2)))

/-- Lemma: `seededShuffle` returns a permutation of its input. -/
theorem seededShuffle_perm (l : List α) (seed : List Nat) :
    List.Perm (seededShuffle l seed) l :=
  fyLoop_perm (l.length - 1) l (createSeededRandom seed)

/-- Lemma: `toInt32` only depends on the argument modulo `2^32`. -/
theorem toInt32_congr {x y : Int} (h : x % 4294967296 = y % 4294967296) :
    toInt32 x = toInt32 y := by
  unfold toInt32
  rw [h]

/-- Lemma: `toInt32 x` is congruent to `x` modulo `2^32`. -/
theorem toInt32_emod (x : Int) : toInt32 x % 4294967296 = x % 4294967296 := by
  unfold toInt32
  split <;> omega

/-- The coded seed-folding step `((hash << 5) - hash) + char`, with its two
internal int32 truncations, equals a single truncation of
`hash*32 - hash + char`. -/
theorem hashStep_eq (h : Int) (c : Nat) :
    hashStep h c = toInt32 (h * 32 - h + c) := by
  unfold hashStep
  apply toInt32_congr
  conv_lhs => rw [Int.add_emod, Int.sub_emod, toInt32_emod]
  conv_rhs => rw [Int.add_emod, Int.sub_emod]

/-- The folded hash satisfies the corrected recurrence
`hash = toInt32 (hash*32 - hash + charCode)`. -/
theorem hashSeed_eq (codes : List Nat) :
    hashSeed codes = codes.foldl (fun (a : Int) (c : Nat) => toInt32 (a * 32 - a + (c : Int))) 0 := by
  unfold hashSeed
  have hstep : hashStep = fun (a : Int) (c : Nat) => toInt32 (a * 32 - a + (c : Int)) := by
    funext a c
    exact hashStep_eq a c
  rw [hstep]

/-- Shifting the start of an LCG iteration by one step. -/
theorem lcgIter_shift (s : Nat) : ∀ k, lcgIter (lcgNext s) k = lcgIter s (k + 1) := by
  intro k
  induction k with
  | zero => simp [lcgIter]
  | succ n ih => simp only [lcgIter, ih]

/-- The `k`-th value produced by a generator is `lcgIter state (k+1) / 2^32`. -/
theorem run_getElem : ∀ (n k : Nat) (g : RandGenState), k < n →
    (RandGenState.run g n)[k]? =
      some ((lcgIter g.state (k + 1) : ℚ) / 4294967296) := by
  intro n
  induction n with
  | zero => intro k g hk; omega
  | succ m ih =>
    intro k g hk
    cases k with
    | zero => simp [RandGenState.run, RandGenState.next, lcgIter]
    | succ j =>
      have hj : j < m := by omega
      simp only [RandGenState.run, RandGenState.next, List.getElem?_cons_succ]
      rw [ih j ⟨lcgNext g.state⟩ hj]
      simp only [lcgIter_shift]

/-- Every produced value lies in `[0, 1)`. -/
theorem run_mem_bounds : ∀ (n : Nat) (g : RandGenState) (v : ℚ),
    v ∈ RandGenState.run g n → 0 ≤ v ∧ v < 1 := by
  intro n
  induction n with
  | zero => intro g v hv; simp [RandGenState.run] at hv
  | succ m ih =>
    intro g v hv
    simp only [RandGenState.run, RandGenState.next, List.mem_cons] at hv
    rcases hv with hv | hv
    · subst hv
      constructor
      · positivity
      · rw [div_lt_one (by norm_num)]
        have hlt : lcgNext g.state < 4294967296 := Nat.mod_lt _ (by norm_num)
        exact_mod_cast hlt
    · exact ih _ v hv

/-- Lemma: `runPage` touches the file system only at the page's own output path. -/
theorem runPage_fs_ne (provider : PageDef → List Char) (force : Bool) (fs : FS)
    (pd : PageDef) (q : String) (hq : q ≠ pd.outputPath) :
    (runPage provider force fs pd).2 q = fs q := by
  unfold runPage
  split
  · split
    · split
      · rfl
      · simp [FS.write, hq]
    · simp [FS.write, hq]
  · simp [FS.write, hq]

/-- If the provider's response for a page validates and exceeds 500 bytes,
then after that page's task its output path holds good contents. -/
theorem runPage_goodAt_self (provider : PageDef → List Char) (force : Bool) (fs : FS)
    (pd : PageDef) (hval : validatePageContent (provider pd) = true)
    (hlen : 500 < (provider pd).length) :
    goodAt (runPage provider force fs pd).2 pd := by
  unfold runPage
  split
  · cases hfs : fs pd.outputPath with
    | some content =>
      simp only [hfs]
      split
      · rename_i hgood
        refine ⟨content, hfs, ?_, ?_⟩
        · exact (Bool.and_eq_true _ _ |>.mp hgood).1
        · simpa using (Bool.and_eq_true _ _ |>.mp hgood).2
      · exact ⟨provider pd, by simp [FS.write], hval, hlen⟩
    | none =>
      simp only [hfs]
      exact ⟨provider pd, by simp [FS.write], hval, hlen⟩
  · exact ⟨provider pd, by simp [FS.write], hval, hlen⟩

/-- A page task with a validating provider response preserves goodness at
every path. -/
theorem runPage_goodAt_preserve (provider : PageDef → List Char) (force : Bool)
    (fs : FS) (pd q : PageDef) (hval : validatePageContent (provider pd) = true)
    (hlen : 500 < (provider pd).length) (hq : goodAt fs q) :
    goodAt (runPage provider force fs pd).2 q := by
  by_cases hpath : q.outputPath = pd.outputPath
  · obtain ⟨c, hc, hcv, hcl⟩ := runPage_goodAt_self provider force fs pd hval hlen
    exact ⟨c, by rw [hpath]; exact hc, hcv, hcl⟩
  · obtain ⟨c, hc, hcv, hcl⟩ := hq
    exact ⟨c, by rw [runPage_fs_ne provider force fs pd q.outputPath hpath]; exact hc, hcv, hcl⟩

/-- A whole run with validating provider responses preserves goodness at every
path. -/
theorem runAll_goodAt_preserve (provider : PageDef → List Char) (force : Bool) :
    ∀ (pages : List PageDef) (fs : FS) (q : PageDef),
      (∀ pd ∈ pages, validatePageContent (provider pd) = true ∧ 500 < (provider pd).length) →
      goodAt fs q → goodAt (runAll provider force pages fs).2 q := by
  intro pages
  induction pages with
  | nil => intro fs q _ hq; exact hq
  | cons pd rest ih =>
    intro fs q hval hq
    exact ih _ q (fun x hx => hval x (List.mem_cons_of_mem pd hx))
      (runPage_goodAt_preserve provider force fs pd q
        (hval pd (List.mem_cons_self pd rest)).1 (hval pd (List.mem_cons_self pd rest)).2 hq)

/-- After a run with validating provider responses, every page of the run has
good contents at its output path. -/
theorem runAll_goodAt_all (provider : PageDef → List Char) (force : Bool) :
    ∀ (pages : List PageDef) (fs : FS),
      (∀ pd ∈ pages, validatePageContent (provider pd) = true ∧ 500 < (provider pd).length) →
      ∀ pd ∈ pages, goodAt (runAll provider force pages fs).2 pd := by
  intro pages
  induction pages with
  | nil => intro fs _ pd hpd; simp at hpd
  | cons p rest ih =>
    intro fs hval pd hpd
    rcases List.mem_cons.mp hpd with hpd | hpd
    · subst hpd
      exact runAll_goodAt_preserve provider force rest _ pd
        (fun x hx => hval x (List.mem_cons_of_mem pd hx))
        (runPage_goodAt_self provider force fs pd
          (hval pd (List.mem_cons_self pd rest)).1 (hval pd (List.mem_cons_self pd rest)).2)
    · exact ih _ (fun x hx => hval x (List.mem_cons_of_mem p hx)) pd hpd

/-- On a file system where every page of the list already has good contents,
an unforced run skips exactly the pages outside the always-regenerate
categories. -/
theorem runAll_outcomes_good (provider : PageDef → List Char) :
    ∀ (pages : List PageDef) (fs : FS),
      (∀ pd ∈ pages, validatePageContent (provider pd) = true ∧ 500 < (provider pd).length) →
      (∀ pd ∈ pages, goodAt fs pd) →
      (runAll provider false pages fs).1 =
        pages.map fun pd =>
          (pd.name, if mustRegenerate pd.name then Outcome.generated else Outcome.skipped) := by
  intro pages
  induction pages with
  | nil => intro fs _ _; rfl
  | cons pd rest ih =>
    intro fs hval hgood
    have hgpd : goodAt fs pd := hgood pd (List.mem_cons_self pd rest)
    have houtcome : (runPage provider false fs pd).1 =
        if mustRegenerate pd.name then Outcome.generated else Outcome.skipped := by
      obtain ⟨c, hc, hcv, hcl⟩ := hgpd
      unfold runPage
      cases hmr : mustRegenerate pd.name with
      | true => simp [hmr]
      | false => simp [hmr, hc, hcv, hcl]
    have hrest : ∀ x ∈ rest, goodAt (runPage provider false fs pd).2 x := fun x hx =>
      runPage_goodAt_preserve provider false fs pd x
        (hval pd (List.mem_cons_self pd rest)).1 (hval pd (List.mem_cons_self pd rest)).2
        (hgood x (List.mem_cons_of_mem pd hx))
    simp only [runAll, List.map_cons]
    rw [houtcome, ih _ (fun x hx => hval x (List.mem_cons_of_mem pd hx)) hrest]

/-- Dropping the empty strings from a list removes exactly `count ""` of its
elements. -/
theorem filter_count_len : ∀ (pages : List String),
    (pages.filter (fun p => !(p == ""))).length + pages.count "" = pages.length := by
  intro pages
  induction pages with
  | nil => rfl
  | cons p t ih =>
    by_cases hp : p = ""
    · subst hp
      simp [List.filter_cons, List.count_cons]
      omega
    · have hpb : (p == "") = false := by simpa using hp
      have hpb2 : ("" == p) = false := by
        simp only [beq_eq_false_iff_ne]
        exact fun he => hp he.symm
      simp [List.filter_cons, List.count_cons, hpb, hpb2]
      omega

/-! # Claims -/

/-- C1: the seeded pseudo-random source and the seeded shuffle are
deterministic — any two generators created by `createSeededRandom` from the
same seed produce the identical sequence of values, and any two
`seededShuffle` results computed from the same (domain, namespace, sequence)
are identical.  In this embedding both operations are pure state-passing
functions of their seed, so two runs from equal generators are literally the
same computation. -/
theorem claim_C1_determinism (codes : List Nat) (g₁ g₂ : RandGenState)
    (h₁ : g₁ = mkGen codes) (h₂ : g₂ = mkGen codes) (n : Nat)
    (l : List String) (domain ns : List Nat) (out₁ out₂ : List String)
    (ho₁ : out₁ = seededShuffle l (domain ++ ns))
    (ho₂ : out₂ = seededShuffle l (domain ++ ns)) :
    RandGenState.run g₁ n = RandGenState.run g₂ n ∧ out₁ = out₂ := by
  subst h₁
  subst h₂
  subst ho₁
  subst ho₂
  exact ⟨rfl, rfl⟩

/-- C1 witness: two generators seeded with the code units of `example.com`
agree on their first three values, and two static-page shuffles of the same
domain and namespace agree. -/
theorem claim_C1_determinism_witness :
    RandGenState.run (mkGen (strCodes "example.com")) 3 =
      RandGenState.run (mkGen (strCodes "example.com")) 3
    ∧ seededShuffle ["faq", "apply"] (strCodes "example.com" ++ strCodes "-pages") =
      seededShuffle ["faq", "apply"] (strCodes "example.com" ++ strCodes "-pages") :=
  claim_C1_determinism (strCodes "example.com") (mkGen (strCodes "example.com"))
    (mkGen (strCodes "example.com")) rfl rfl 3 ["faq", "apply"]
    (strCodes "example.com") (strCodes "-pages")
    (seededShuffle ["faq", "apply"] (strCodes "example.com" ++ strCodes "-pages"))
    (seededShuffle ["faq", "apply"] (strCodes "example.com" ++ strCodes "-pages")) rfl rfl

/-- C3: evaluated on eight consecutive retryable (HTTP 429) errors, `withRetry`
sleeps exactly `5000 * 2^n` before the `n`-th retry — the delays before the
2nd, 3rd and 4th attempts are 5000 ms, 10000 ms and 20000 ms as claimed — but
the claimed cap never happens: the delay before the 5th retry is already
80000 ms and the last is 640000 ms, both above `MAX_RETRY_DELAY_MS = 60000`,
a constant the code declares (`// Max 60 second delay`) and never uses. -/
theorem claim_C3_backoff_uncapped :
    (withRetry attempts429 times1k ⟨0, 0⟩ MAX_RETRIES).delays =
      [5000, 10000, 20000, 40000, 80000, 160000, 320000, 640000]
    ∧ (withRetry attempts429 times1k ⟨0, 0⟩ MAX_RETRIES).delays.take 3 =
      [5000, 10000, 20000]
    ∧ ∃ d ∈ (withRetry attempts429 times1k ⟨0, 0⟩ MAX_RETRIES).delays,
        MAX_RETRY_DELAY_MS < d := by
  refine ⟨by decide, by decide, 80000, by decide, by decide⟩

/-- C4: evaluated on a run that observes one retryable (HTTP 429) error,
`withRetry` updates only the timestamp component of the shared rate-limit
state: `lastRateLimitHit` becomes the current time (1000), while
`consecutiveRateLimitHits` stays 0 — the claimed increment does not exist in
the code. -/
theorem claim_C4_counter_never_incremented :
    (withRetry attempts429once times1k ⟨0, 0⟩ MAX_RETRIES).delays = [5000]
    ∧ (withRetry attempts429once times1k ⟨0, 0⟩ MAX_RETRIES).finalState.lastRateLimitHit = 1000
    ∧ (withRetry attempts429once times1k ⟨0, 0⟩ MAX_RETRIES).finalState.consecutiveRateLimitHits
        = 0 := by
  refine ⟨by decide, by decide, by decide⟩

/-- C5: the provider call of `generatePageWithClaude` is wrapped only in
`withRetry`; `withTimeout` is defined but never applied.  Consequently a
single provider call that never settles suspends the page task forever
(`none`), even though `withTimeout` would have settled the race with a
timeout rejection. -/
theorem claim_C5_no_timeout_on_provider_call :
    generatePageProviderCall hangingAttempts = none
    ∧ withTimeout (none : Option (List Char)) 300000 ≠ none := by
  exact ⟨rfl, by simp [withTimeout]⟩

/-- C7 counterexample: on the seed `"ab"` (code units 97, 98) the
spec-worded recurrence `hash = hash*31 - hash + charCode` yields initial LCG
state 3008, while the code (`hash = ((hash << 5) - hash) + charCode`, i.e.
`hash*32 - hash + charCode`) yields 3105 — the claimed folding formula is not
the coded one. -/
theorem claim_C7_counterexample :
    specCreateSeededRandom [97, 98] = 3008
    ∧ createSeededRandom [97, 98] = 3105
    ∧ specCreateSeededRandom [97, 98] ≠ createSeededRandom [97, 98] := by
  refine ⟨by decide, by decide, by decide⟩

/-- C7 (amended): `createSeededRandom` folds the seed string into a 32-bit
integer by iterating `hash = hash*32 - hash + charCode` (that is,
`31*hash + charCode`) wrapped to signed 32-bit, uses `abs(hash) || 1` as the
initial state of an LCG with multiplier 1664525, increment 1013904223 and
modulus `2^32`, and the `k`-th generated value equals the `k+1`-st LCG state
divided by `2^32`, hence lies in `[0, 1)`. -/
theorem claim_C7_amended (codes : List Nat) (n k : Nat) (hk : k < n) :
    createSeededRandom codes =
      (if (codes.foldl (fun (a : Int) (c : Nat) => toInt32 (a * 32 - a + (c : Int))) 0).natAbs
          = 0 then 1
       else (codes.foldl (fun (a : Int) (c : Nat) => toInt32 (a * 32 - a + (c : Int))) 0).natAbs)
    ∧ lcgNext = (fun s => (s * 1664525 + 1013904223) % 4294967296)
    ∧ (RandGenState.run (mkGen codes) n)[k]? =
        some ((lcgIter (createSeededRandom codes) (k + 1) : ℚ) / 4294967296)
    ∧ ∀ v ∈ RandGenState.run (mkGen codes) n, 0 ≤ v ∧ v < 1 := by
  refine ⟨?_, rfl, run_getElem n k (mkGen codes) hk, fun v hv => run_mem_bounds n (mkGen codes) v hv⟩
  simp only [createSeededRandom, hashSeed_eq]

/-- C7 witness: the amended characterization applied to the seed `"a"`,
reading off the second generated value. -/
theorem claim_C7_amended_witness :
    1 < 3
    ∧ (RandGenState.run (mkGen [97]) 3)[1]? =
        some ((lcgIter (createSeededRandom [97]) 2 : ℚ) / 4294967296) :=
  ⟨by decide, (claim_C7_amended [97] 3 1 (by decide)).2.2.1⟩

/-- C8: `seededShuffle` is pure in this embedding (its input list is never
modified — the JS code copies the array before shuffling), and for every
input and seed the result is a permutation of the input: same multiset of
elements, hence the same length. -/
theorem claim_C8_shuffle_is_permutation {α : Type} (l : List α) (seed : List Nat) :
    List.Perm (seededShuffle l seed) l ∧ (seededShuffle l seed).length = l.length :=
  ⟨seededShuffle_perm l seed, (seededShuffle_perm l seed).length_eq⟩

/-- C10: the result of `filterPageDefinitions` depends only on the
`staticPages` and `programPages` fields of the options — two option records
agreeing on those two fields but differing in `homepage`, `cityStatePages` or
`forceRegenerate` yield the same page list; omitted options return the whole
catalog; and every catalog page belongs to the static-page or the
program-page name list. -/
theorem claim_C10_option_noninterference (o₁ o₂ : GenerateOptions)
    (hs : o₁.staticPages = o₂.staticPages) (hp : o₁.programPages = o₂.programPages) :
    filterPageDefinitions (some o₁) = filterPageDefinitions (some o₂)
    ∧ filterPageDefinitions none = PAGE_DEFINITIONS
    ∧ ∀ pd ∈ PAGE_DEFINITIONS,
        STATIC_PAGE_NAMES.contains pd.name = true
        ∨ PROGRAM_PAGE_NAMES.contains pd.name = true := by
  refine ⟨?_, rfl, by decide⟩
  simp only [filterPageDefinitions, hs, hp]

/-- C10 witness: two concrete option records differing only in `homepage`,
`cityStatePages` and `forceRegenerate` filter the catalog identically. -/
theorem claim_C10_option_noninterference_witness :
    filterPageDefinitions (some ⟨true, true, false, true, some true⟩) =
      filterPageDefinitions (some ⟨false, true, false, false, none⟩)
    ∧ filterPageDefinitions none = PAGE_DEFINITIONS
    ∧ ∀ pd ∈ PAGE_DEFINITIONS,
        STATIC_PAGE_NAMES.contains pd.name = true
        ∨ PROGRAM_PAGE_NAMES.contains pd.name = true :=
  claim_C10_option_noninterference ⟨true, true, false, true, some true⟩
    ⟨false, true, false, false, none⟩ rfl rfl

/-- C2 counterexample: running the orchestrator twice in succession over the
standard catalog from an empty output tree, with no catalog changes, no
`forceRegenerate`, and a provider whose outputs pass validation, the second
run still regenerates `state-programs` (an always-regenerate page) and makes
9 provider calls — not 100% skipped and not zero calls. -/
theorem claim_C2_counterexample :
    ("state-programs", Outcome.generated) ∈
      (runAll constProvider false PAGE_DEFINITIONS
        ((runAll constProvider false PAGE_DEFINITIONS emptyFS).2)).1
    ∧ providerCalls
        (runAll constProvider false PAGE_DEFINITIONS
          ((runAll constProvider false PAGE_DEFINITIONS emptyFS).2)).1 = 9 := by
  refine ⟨by decide, by decide⟩

/-- C2 (amended): if the orchestrator is run twice in succession over the same
page catalog with no catalog changes and `forceRegenerate` not set, and every
provider response passes the validation heuristics with more than 500 bytes,
then in the second run exactly the pages outside the always-regenerate
categories are `skipped`; each always-regenerate page (the five program pages,
`providers`, `programs`, `faq`, `states-index`) is regenerated with a provider
call in every run. -/
theorem claim_C2_second_run_outcomes (provider : PageDef → List Char) (fs0 : FS)
    (hval : ∀ pd ∈ PAGE_DEFINITIONS,
      validatePageContent (provider pd) = true ∧ 500 < (provider pd).length) :
    (runAll provider false PAGE_DEFINITIONS
      ((runAll provider false PAGE_DEFINITIONS fs0).2)).1 =
      PAGE_DEFINITIONS.map (fun pd =>
        (pd.name, if mustRegenerate pd.name then Outcome.generated else Outcome.skipped)) :=
  runAll_outcomes_good provider PAGE_DEFINITIONS _ hval
    (runAll_goodAt_all provider false PAGE_DEFINITIONS fs0 hval)

/-- C2 witness: the amended statement for the constant valid provider starting
from the empty output tree. -/
theorem claim_C2_second_run_outcomes_witness :
    (runAll constProvider false PAGE_DEFINITIONS
      ((runAll constProvider false PAGE_DEFINITIONS emptyFS).2)).1 =
      PAGE_DEFINITIONS.map (fun pd =>
        (pd.name, if mustRegenerate pd.name then Outcome.generated else Outcome.skipped)) :=
  claim_C2_second_run_outcomes constProvider emptyFS (by decide)

/-- C6 counterexample: the `apply` page is outside every always-regenerate
category, an output exists at its target path, the validation heuristics pass
on it, and the run is not forced — yet the page is regenerated, because its
file is exactly 500 bytes and the gate additionally demands a size strictly
greater than 500 (`existingStat.size > 500`), a condition absent from the
claimed rule. -/
theorem claim_C6_counterexample :
    mustRegenerate applyPage.name = false
    ∧ FS.write emptyFS applyPage.outputPath c500 applyPage.outputPath = some c500
    ∧ validatePageContent c500 = true
    ∧ c500.length = 500
    ∧ (runPage constProvider false (FS.write emptyFS applyPage.outputPath c500)
        applyPage).1 = Outcome.generated := by
  refine ⟨by decide, by decide, by decide, by decide, by decide⟩

/-- C6 (amended): for every page not in the always-regenerate category,
generation is skipped iff (a) an output exists at the target path, (b) the
validation heuristics pass on it, (b') its size strictly exceeds 500 bytes,
and (c) `forceRegenerate` is not set; and when `forceRegenerate` is set,
every page is regenerated regardless of prior valid output. -/
theorem claim_C6_idempotency_gate (provider : PageDef → List Char) (fs : FS)
    (pd : PageDef) (force : Bool) :
    (mustRegenerate pd.name = false →
      ((runPage provider force fs pd).1 = Outcome.skipped ↔
        (force = false ∧ ∃ c, fs pd.outputPath = some c ∧
          validatePageContent c = true ∧ 500 < c.length)))
    ∧ (force = true → (runPage provider force fs pd).1 = Outcome.generated) := by
  constructor
  · intro hmr
    cases force with
    | true =>
      unfold runPage
      simp [hmr]
    | false =>
      unfold runPage
      simp only [hmr, Bool.not_false, Bool.and_self, if_true]
      cases hfs : fs pd.outputPath with
      | none => simp [hfs]
      | some content =>
        simp only [hfs]
        by_cases hv : (validatePageContent content && decide (content.length > 500)) = true
        · rw [if_pos hv]
          simp only [Bool.and_eq_true, decide_eq_true_eq] at hv
          constructor
          · intro _
            exact ⟨by simp, content, rfl, hv.1, hv.2⟩
          · intro _
            rfl
        · rw [if_neg hv]
          simp only [Bool.and_eq_true, decide_eq_true_eq] at hv
          constructor
          · intro h
            exact absurd h (by simp)
          · rintro ⟨-, c, hc, hcv, hcl⟩
            injection hc with hceq
            subst hceq
            exact absurd ⟨hcv, by omega⟩ hv
  · intro hforce
    subst hforce
    unfold runPage
    simp

/-- C6 witness: the gate evaluated on the `apply` page with `forceRegenerate`
set over an empty output tree — the skip equivalence degenerates correctly and
the page is regenerated. -/
theorem claim_C6_idempotency_gate_witness :
    ((runPage constProvider true emptyFS applyPage).1 = Outcome.skipped ↔
      (true = false ∧ ∃ c, emptyFS applyPage.outputPath = some c ∧
        validatePageContent c = true ∧ 500 < c.length))
    ∧ (runPage constProvider true emptyFS applyPage).1 = Outcome.generated :=
  ⟨(claim_C6_idempotency_gate constProvider emptyFS applyPage true).1 (by decide),
   (claim_C6_idempotency_gate constProvider emptyFS applyPage true).2 rfl⟩

/-- C9: `shuffleStaticPages` pins the homepage (the empty-string entry) first
whenever the input contains it, followed by the seeded shuffle — a
permutation — of the non-empty entries; since every empty-string occurrence
is filtered out and at most one is re-prepended, the output length satisfies
`len(out) + count("") = len(in) + (1 if "" present else 0)`: an input holding
the empty string more than once comes out strictly shorter (duplicate
homepage entries are silently dropped), while an input holding it at most
once keeps its length. -/
theorem claim_C9_homepage_pinned (domain : List Nat) (pages : List String) :
    shuffleStaticPages domain pages =
      (if "" ∈ pages then [""] else []) ++
        seededShuffle (pages.filter (fun p => !(p == ""))) (domain ++ strCodes "-pages")
    ∧ ("" ∈ pages → ∃ rest, shuffleStaticPages domain pages = "" :: rest ∧
        List.Perm rest (pages.filter (fun p => !(p == ""))))
    ∧ (shuffleStaticPages domain pages).length + pages.count "" =
        pages.length + (if "" ∈ pages then 1 else 0)
    ∧ (2 ≤ pages.count "" → (shuffleStaticPages domain pages).length < pages.length) := by
  have hstruct : shuffleStaticPages domain pages =
      (if "" ∈ pages then [""] else []) ++
        seededShuffle (pages.filter (fun p => !(p == ""))) (domain ++ strCodes "-pages") := by
    unfold shuffleStaticPages
    cases hf : pages.find? (fun p => p == "") with
    | some x =>
      have hx : x = "" := by simpa using List.find?_some hf
      have hmem : "" ∈ pages := hx ▸ List.mem_of_find?_eq_some hf
      simp [hmem]
    | none =>
      have hmem : "" ∉ pages := by
        intro hm
        have := List.find?_eq_none.mp hf "" hm
        simp at this
      simp [hmem]
  have hperm := seededShuffle_perm (pages.filter (fun p => !(p == "")))
    (domain ++ strCodes "-pages")
  have hfc := filter_count_len pages
  have hlen : (shuffleStaticPages domain pages).length + pages.count "" =
      pages.length + (if "" ∈ pages then 1 else 0) := by
    rw [hstruct, List.length_append, hperm.length_eq]
    by_cases hm : "" ∈ pages <;> simp [hm] <;> omega
  refine ⟨hstruct, ?_, hlen, ?_⟩
  · intro hm
    refine ⟨seededShuffle (pages.filter (fun p => !(p == ""))) (domain ++ strCodes "-pages"),
      ?_, hperm⟩
    rw [hstruct, if_pos hm]
    rfl
  · intro h2
    have hm : "" ∈ pages := by
      by_contra hnot
      have hz : pages.count "" = 0 := by
        simpa using List.count_eq_zero.mpr hnot
      omega
    rw [if_pos hm] at hlen
    omega

/-- C9 witness: on the input `["", "x", ""]` the homepage is pinned first with
the non-empty entries permuted after it, and the duplicate homepage entry is
dropped, so the output is strictly shorter than the input. -/
theorem claim_C9_homepage_pinned_witness :
    (∃ rest, shuffleStaticPages [100] ["", "x", ""] = "" :: rest ∧
      List.Perm rest ((["", "x", ""] : List String).filter (fun p => !(p == ""))))
    ∧ (shuffleStaticPages [100] ["", "x", ""]).length <
        (["", "x", ""] : List String).length :=
  ⟨(claim_C9_homepage_pinned [100] ["", "x", ""]).2.1 (by decide),
   (claim_C9_homepage_pinned [100] ["", "x", ""]).2.2.2 (by decide)⟩

end Site
